import Mathlib

/-!
# Wyrdness signal engine — verification of the statistical core

Shallow embedding of the signal engine of the Wyrdness repository
(`src/lib/signal/math.ts`, `src/lib/signal/starting-point.ts`, and the
engine functions of `src/routes/+page.svelte`), together with theorems
settling the frozen claims about the natural-language specification.

JavaScript `number` arithmetic is modelled by real arithmetic; integer
indices by `ℕ`/`ℤ` with the same clamping the source performs.
-/

open scoped Classical

noncomputable section

namespace Wyrdness

/-! ## `src/lib/signal/math.ts` -/

/-- `clamp01(v)` from `math.ts`: `Math.min(1, Math.max(0, v))`. -/
def clamp01 (v : ℝ) : ℝ := min 1 (max 0 v)

/-- `erfApprox(x)` from `math.ts`: Abramowitz–Stegun polynomial
approximation of the error function. -/
def erfApprox (x : ℝ) : ℝ :=
  let sign : ℝ := if x < 0 then -1 else 1
  let ax := |x|
  let t := 1 / (1 + 0.3275911 * ax)
  let a1 : ℝ := 0.254829592
  let a2 : ℝ := -0.284496736
  let a3 : ℝ := 1.421413741
  let a4 : ℝ := -1.453152027
  let a5 : ℝ := 1.061405429
  let y := 1 - ((((a5 * t + a4) * t + a3) * t + a2) * t + a1) * t * Real.exp (-(ax * ax))
  sign * y

/-- `normalCdf(x)` from `math.ts`: `0.5 * (1 + erfApprox(x / Math.SQRT2))`. -/
def normalCdf (x : ℝ) : ℝ := 0.5 * (1 + erfApprox (x / Real.sqrt 2))

/-- `twoSidedPFromZ(z)` from `math.ts`. -/
def twoSidedPFromZ (z : ℝ) : ℝ :=
  let az := |z|
  let tail := 1 - normalCdf az
  max 1e-18 (min 1 (2 * tail))

/-- `strengthFromZ(z, zStart, zFull)` from `math.ts`:
`clamp01((Math.abs(z) - zStart) / (zFull - zStart))`. -/
def strengthFromZ (z zStart zFull : ℝ) : ℝ :=
  clamp01 ((|z| - zStart) / (zFull - zStart))

/-! Basic facts about `clamp01`. -/

lemma clamp01_nonneg (v : ℝ) : 0 ≤ clamp01 v := by
  unfold clamp01
  have h0 : (0:ℝ) ≤ max 0 v := le_max_left _ _
  exact le_min (by norm_num) h0

lemma clamp01_le_one (v : ℝ) : clamp01 v ≤ 1 := min_le_left _ _

lemma clamp01_of_nonpos {v : ℝ} (h : v ≤ 0) : clamp01 v = 0 := by
  unfold clamp01
  rw [max_eq_left h]
  norm_num

lemma clamp01_of_one_le {v : ℝ} (h : 1 ≤ v) : clamp01 v = 1 := by
  unfold clamp01
  rw [max_eq_right (le_trans (by norm_num) h), min_eq_left h]

lemma clamp01_mono {u v : ℝ} (h : u ≤ v) : clamp01 u ≤ clamp01 v := by
  unfold clamp01
  exact min_le_min le_rfl (max_le_max le_rfl h)

/-- C8.  The strength mapping `strengthFromZ` is, for any fixed thresholds
`zStart < zFull`, non-decreasing in `|z|`, equal to `0` whenever
`|z| ≤ zStart`, and equal to `1` whenever `|z| ≥ zFull`. -/
theorem strengthFromZ_monotone_and_saturates
    (z₁ z₂ zStart zFull : ℝ) (hlt : zStart < zFull) :
    (|z₁| ≤ |z₂| → strengthFromZ z₁ zStart zFull ≤ strengthFromZ z₂ zStart zFull) ∧
    (|z₁| ≤ zStart → strengthFromZ z₁ zStart zFull = 0) ∧
    (zFull ≤ |z₁| → strengthFromZ z₁ zStart zFull = 1) := by
  have hd : 0 < zFull - zStart := sub_pos.mpr hlt
  refine ⟨?_, ?_, ?_⟩
  · intro h
    unfold strengthFromZ
    exact clamp01_mono ((div_le_div_iff_of_pos_right hd).mpr (by linarith))
  · intro h
    unfold strengthFromZ
    exact clamp01_of_nonpos (div_nonpos_of_nonpos_of_nonneg (by linarith) hd.le)
  · intro h
    unfold strengthFromZ
    exact clamp01_of_one_le ((one_le_div hd).mpr (by linarith))

/-- Witness for C8 at the engine's default thresholds `(1.8, 3.5)` with
`|z₁| = 2 ≤ |z₂| = 3`. -/
theorem strengthFromZ_monotone_and_saturates_witness :
    (1.8 : ℝ) < 3.5 ∧
    ((|(2:ℝ)| ≤ |(3:ℝ)| → strengthFromZ 2 1.8 3.5 ≤ strengthFromZ 3 1.8 3.5) ∧
     (|(2:ℝ)| ≤ 1.8 → strengthFromZ 2 1.8 3.5 = 0) ∧
     (3.5 ≤ |(2:ℝ)| → strengthFromZ 2 1.8 3.5 = 1)) :=
  ⟨by norm_num, strengthFromZ_monotone_and_saturates 2 3 1.8 3.5 (by norm_num)⟩

/-! ## `src/lib/signal/starting-point.ts`

The three searches scan `s` over
`for (let s = searchStart; s < currentIdx - minLen + 1; s++)` with
`searchStart = Math.max(0, currentIdx - lookback)`, keeping the candidate
with the strictly largest score.  `cumSum[i] ?? 0` is `List.getD _ 0`. -/

/-- Return record of `findOptimalStartingPoint` / `...Agreement`:
`{ startIdx, z }`. -/
structure SPResult where
  startIdx : ℕ
  z : ℝ
  deriving DecidableEq

/-- The list of candidate start indices scanned by every search loop:
`s` from `max(0, currentIdx - lookback)` (truncated ℕ subtraction) while
`s < currentIdx - minLen + 1` (computed in ℤ, as in JavaScript). -/
def spCandidates (currentIdx lookback minLen : ℕ) : List ℕ :=
  List.range' (currentIdx - lookback)
    (((currentIdx : ℤ) - minLen + 1 - (currentIdx - lookback : ℕ)).toNat)

/-- Candidate score of `findOptimalStartingPoint`:
`delta / Math.sqrt(bitSpan)` with `delta = cumSum[cur] - cumSum[s]`,
`bitSpan = (cur - s) * bitsPerTick`. -/
def zCand (cumSum : List ℝ) (currentIdx : ℕ) (bitsPerTick : ℝ) (s : ℕ) : ℝ :=
  (cumSum.getD currentIdx 0 - cumSum.getD s 0) /
    Real.sqrt (((currentIdx : ℝ) - s) * bitsPerTick)

/-- Loop body of `findOptimalStartingPoint`: replace the incumbent iff
`Math.abs(z) > Math.abs(bestZ)`. -/
def spStep (cumSum : List ℝ) (currentIdx : ℕ) (bitsPerTick : ℝ)
    (acc : SPResult) (s : ℕ) : SPResult :=
  if |zCand cumSum currentIdx bitsPerTick s| > |acc.z| then
    ⟨s, zCand cumSum currentIdx bitsPerTick s⟩
  else acc

/-- `findOptimalStartingPoint` from `starting-point.ts`:
initial best `(currentIdx, 0)`, scanned in increasing `s`. -/
def findOptimalStartingPoint (cumSum : List ℝ) (currentIdx : ℕ)
    (bitsPerTick : ℝ) (lookback minLen : ℕ) : SPResult :=
  (spCandidates currentIdx lookback minLen).foldl
    (spStep cumSum currentIdx bitsPerTick) ⟨currentIdx, 0⟩

/-- Candidate score of `findOptimalStartingPointAgreement`:
`delta / Math.sqrt(bitSpan / 4)` (agreement variance `N/4`). -/
def zCandAgree (cumSum : List ℝ) (currentIdx : ℕ) (bitsPerTick : ℝ) (s : ℕ) : ℝ :=
  (cumSum.getD currentIdx 0 - cumSum.getD s 0) /
    Real.sqrt ((((currentIdx : ℝ) - s) * bitsPerTick) / 4)

/-- Loop body of `findOptimalStartingPointAgreement` as it stands in
`src/lib/signal/starting-point.ts` (the file `+page.svelte` imports):
the comparison is the two-sided `Math.abs(z) > Math.abs(bestZ)`. -/
def spStepAgree (cumSum : List ℝ) (currentIdx : ℕ) (bitsPerTick : ℝ)
    (acc : SPResult) (s : ℕ) : SPResult :=
  if |zCandAgree cumSum currentIdx bitsPerTick s| > |acc.z| then
    ⟨s, zCandAgree cumSum currentIdx bitsPerTick s⟩
  else acc

/-- `findOptimalStartingPointAgreement` from
`src/lib/signal/starting-point.ts`. -/
def findOptimalStartingPointAgreement (cumSum : List ℝ) (currentIdx : ℕ)
    (bitsPerTick : ℝ) (lookback minLen : ℕ) : SPResult :=
  (spCandidates currentIdx lookback minLen).foldl
    (spStepAgree cumSum currentIdx bitsPerTick) ⟨currentIdx, 0⟩

/-- Loop body of the one-sided variant of the agreement search that also
ships in the repository (the unnamed copy of `starting-point.ts`):
`if (z > bestZ)` — "Only consider positive z (more agreement than
chance). Negative z means disagreement, which is not stick together." -/
def spStepAgreeOneSided (cumSum : List ℝ) (currentIdx : ℕ) (bitsPerTick : ℝ)
    (acc : SPResult) (s : ℕ) : SPResult :=
  if zCandAgree cumSum currentIdx bitsPerTick s > acc.z then
    ⟨s, zCandAgree cumSum currentIdx bitsPerTick s⟩
  else acc

/-- The one-sided `findOptimalStartingPointAgreement` of the repository's
unnamed copy of `starting-point.ts`. -/
def findOptimalStartingPointAgreementOneSided (cumSum : List ℝ) (currentIdx : ℕ)
    (bitsPerTick : ℝ) (lookback minLen : ℕ) : SPResult :=
  (spCandidates currentIdx lookback minLen).foldl
    (spStepAgreeOneSided cumSum currentIdx bitsPerTick) ⟨currentIdx, 0⟩

/-! Comparison helpers: `|a| / √v ≤ |b| / √u ↔ a²·u ≤ b²·v` for positive
`u`, `v`, used to discharge the loop comparisons at concrete inputs. -/

lemma abs_mul_sqrt_eq (a u : ℝ) : |a| * Real.sqrt u = Real.sqrt (a ^ 2 * u) := by
  rw [Real.sqrt_mul (sq_nonneg a), Real.sqrt_sq_eq_abs]

lemma div_sqrt_le_div_sqrt {a b u v : ℝ} (hu : 0 < u) (hv : 0 < v)
    (h : a ^ 2 * u ≤ b ^ 2 * v) :
    |a| / Real.sqrt v ≤ |b| / Real.sqrt u := by
  rw [div_le_div_iff₀ (Real.sqrt_pos.mpr hv) (Real.sqrt_pos.mpr hu),
    abs_mul_sqrt_eq, abs_mul_sqrt_eq]
  exact Real.sqrt_le_sqrt h

lemma abs_div_sqrt (a u : ℝ) : |a / Real.sqrt u| = |a| / Real.sqrt u := by
  rw [abs_div, abs_of_nonneg (Real.sqrt_nonneg u)]

lemma spStep_keep {cs : List ℝ} {ci : ℕ} {bt : ℝ} {acc : SPResult} {s : ℕ}
    (h : |zCand cs ci bt s| ≤ |acc.z|) : spStep cs ci bt acc s = acc := by
  unfold spStep
  rw [if_neg (not_lt.mpr h)]

lemma spStep_take {cs : List ℝ} {ci : ℕ} {bt : ℝ} {acc : SPResult} {s : ℕ}
    (h : |acc.z| < |zCand cs ci bt s|) :
    spStep cs ci bt acc s = ⟨s, zCand cs ci bt s⟩ := by
  unfold spStep
  rw [if_pos h]

/-- C5.  On the deviation series `[0,1,2,3,4,5]` with current index 5,
`bitsPerTick = 1`, `lookback = 5`, `minSegmentLen = 1`, the single-stream
starting-point search returns start index 0 and `z = 5/√5 ≈ 2.236`; and
a candidate whose `|z|` merely ties the incumbent never replaces it
(the loop uses the strict `>` comparison). -/
theorem findOptimalStartingPoint_fixture :
    findOptimalStartingPoint [0, 1, 2, 3, 4, 5] 5 1 5 1 = ⟨0, 5 / Real.sqrt 5⟩ ∧
    (∀ (cs : List ℝ) (ci : ℕ) (bt : ℝ) (acc : SPResult) (s : ℕ),
      |zCand cs ci bt s| = |acc.z| → spStep cs ci bt acc s = acc) := by
  constructor
  · have hcand : spCandidates 5 5 1 = [0, 1, 2, 3, 4] := by decide
    have e0 : zCand [0, 1, 2, 3, 4, 5] 5 1 0 = 5 / Real.sqrt 5 := by
      norm_num [zCand, List.getD]
    have e1 : zCand [0, 1, 2, 3, 4, 5] 5 1 1 = 4 / Real.sqrt 4 := by
      norm_num [zCand, List.getD]
    have e2 : zCand [0, 1, 2, 3, 4, 5] 5 1 2 = 3 / Real.sqrt 3 := by
      norm_num [zCand, List.getD]
    have e3 : zCand [0, 1, 2, 3, 4, 5] 5 1 3 = 2 / Real.sqrt 2 := by
      norm_num [zCand, List.getD]
    have e4 : zCand [0, 1, 2, 3, 4, 5] 5 1 4 = 1 / Real.sqrt 1 := by
      norm_num [zCand, List.getD]
    have hpos : (0 : ℝ) < 5 / Real.sqrt 5 := by positivity
    have s0 : spStep [0, 1, 2, 3, 4, 5] 5 1 ⟨5, 0⟩ 0 = ⟨0, 5 / Real.sqrt 5⟩ := by
      rw [spStep_take ?_, e0]
      rw [e0]
      simp
    have s1 : spStep [0, 1, 2, 3, 4, 5] 5 1 ⟨0, 5 / Real.sqrt 5⟩ 1 =
        ⟨0, 5 / Real.sqrt 5⟩ := by
      refine spStep_keep ?_
      rw [e1, abs_div_sqrt, abs_div_sqrt]
      exact div_sqrt_le_div_sqrt (by norm_num) (by norm_num) (by norm_num)
    have s2 : spStep [0, 1, 2, 3, 4, 5] 5 1 ⟨0, 5 / Real.sqrt 5⟩ 2 =
        ⟨0, 5 / Real.sqrt 5⟩ := by
      refine spStep_keep ?_
      rw [e2, abs_div_sqrt, abs_div_sqrt]
      exact div_sqrt_le_div_sqrt (by norm_num) (by norm_num) (by norm_num)
    have s3 : spStep [0, 1, 2, 3, 4, 5] 5 1 ⟨0, 5 / Real.sqrt 5⟩ 3 =
        ⟨0, 5 / Real.sqrt 5⟩ := by
      refine spStep_keep ?_
      rw [e3, abs_div_sqrt, abs_div_sqrt]
      exact div_sqrt_le_div_sqrt (by norm_num) (by norm_num) (by norm_num)
    have s4 : spStep [0, 1, 2, 3, 4, 5] 5 1 ⟨0, 5 / Real.sqrt 5⟩ 4 =
        ⟨0, 5 / Real.sqrt 5⟩ := by
      refine spStep_keep ?_
      rw [e4, abs_div_sqrt, abs_div_sqrt]
      exact div_sqrt_le_div_sqrt (by norm_num) (by norm_num) (by norm_num)
    unfold findOptimalStartingPoint
    rw [hcand]
    simp only [List.foldl_cons, List.foldl_nil, s0, s1, s2, s3, s4]
  · intro cs ci bt acc s h
    exact spStep_keep (le_of_eq h)

/-- Witness for C5's tie-break conjunct: an exact `|z|` tie keeps the
incumbent result. -/
theorem findOptimalStartingPoint_fixture_witness :
    |zCand [0, 1] 1 1 0| = |(⟨7, zCand [0, 1] 1 1 0⟩ : SPResult).z| ∧
    spStep [0, 1] 1 1 ⟨7, zCand [0, 1] 1 1 0⟩ 0 = ⟨7, zCand [0, 1] 1 1 0⟩ :=
  ⟨rfl, findOptimalStartingPoint_fixture.2 [0, 1] 1 1 ⟨7, zCand [0, 1] 1 1 0⟩ 0 rfl⟩

lemma spStepAgree_keep {cs : List ℝ} {ci : ℕ} {bt : ℝ} {acc : SPResult} {s : ℕ}
    (h : |zCandAgree cs ci bt s| ≤ |acc.z|) : spStepAgree cs ci bt acc s = acc := by
  unfold spStepAgree
  rw [if_neg (not_lt.mpr h)]

lemma spStepAgree_take {cs : List ℝ} {ci : ℕ} {bt : ℝ} {acc : SPResult} {s : ℕ}
    (h : |acc.z| < |zCandAgree cs ci bt s|) :
    spStepAgree cs ci bt acc s = ⟨s, zCandAgree cs ci bt s⟩ := by
  unfold spStepAgree
  rw [if_pos h]

lemma spStepAgreeOneSided_keep {cs : List ℝ} {ci : ℕ} {bt : ℝ} {acc : SPResult}
    {s : ℕ} (h : zCandAgree cs ci bt s ≤ acc.z) :
    spStepAgreeOneSided cs ci bt acc s = acc := by
  unfold spStepAgreeOneSided
  rw [if_neg (not_lt.mpr h)]

/-- C1.  On the agreement-deviation series `[0,-1,-2,-3]` (current index 3,
`bitsPerTick = 1`, `lookback = 3`, `minLen = 1`), where every candidate
segment has a strictly negative delta, the `findOptimalStartingPointAgreement`
of `src/lib/signal/starting-point.ts` (the file the engine imports) selects
by `|z|` and returns the NEGATIVE `z = -3/√(3/4) ≈ -3.46` at start index 0;
the one-sided variant of the same function shipped in the repository's
unnamed copy of `starting-point.ts` returns `z = 0` as the claim states. -/
theorem findOptimalStartingPointAgreement_selects_negative_z :
    findOptimalStartingPointAgreement [0, -1, -2, -3] 3 1 3 1 =
      ⟨0, -3 / Real.sqrt (3 / 4)⟩ ∧
    -3 / Real.sqrt (3 / 4) < 0 ∧
    findOptimalStartingPointAgreementOneSided [0, -1, -2, -3] 3 1 3 1 = ⟨3, 0⟩ := by
  have hcand : spCandidates 3 3 1 = [0, 1, 2] := by decide
  have e0 : zCandAgree [0, -1, -2, -3] 3 1 0 = -3 / Real.sqrt (3 / 4) := by
    norm_num [zCandAgree, List.getD]
  have e1 : zCandAgree [0, -1, -2, -3] 3 1 1 = -2 / Real.sqrt (1 / 2) := by
    norm_num [zCandAgree, List.getD]
  have e2 : zCandAgree [0, -1, -2, -3] 3 1 2 = -1 / Real.sqrt (1 / 4) := by
    norm_num [zCandAgree, List.getD]
  have hneg : -3 / Real.sqrt (3 / 4) < 0 := by
    rw [neg_div]
    have : (0 : ℝ) < 3 / Real.sqrt (3 / 4) := by positivity
    linarith
  refine ⟨?_, hneg, ?_⟩
  · have s0 : spStepAgree [0, -1, -2, -3] 3 1 ⟨3, 0⟩ 0 =
        ⟨0, -3 / Real.sqrt (3 / 4)⟩ := by
      rw [spStepAgree_take ?_, e0]
      rw [e0]
      simp [abs_div_sqrt]
    have s1 : spStepAgree [0, -1, -2, -3] 3 1 ⟨0, -3 / Real.sqrt (3 / 4)⟩ 1 =
        ⟨0, -3 / Real.sqrt (3 / 4)⟩ := by
      refine spStepAgree_keep ?_
      rw [e1, abs_div_sqrt, abs_div_sqrt]
      exact div_sqrt_le_div_sqrt (by norm_num) (by norm_num) (by norm_num)
    have s2 : spStepAgree [0, -1, -2, -3] 3 1 ⟨0, -3 / Real.sqrt (3 / 4)⟩ 2 =
        ⟨0, -3 / Real.sqrt (3 / 4)⟩ := by
      refine spStepAgree_keep ?_
      rw [e2, abs_div_sqrt, abs_div_sqrt]
      exact div_sqrt_le_div_sqrt (by norm_num) (by norm_num) (by norm_num)
    unfold findOptimalStartingPointAgreement
    rw [hcand]
    simp only [List.foldl_cons, List.foldl_nil, s0, s1, s2]
  · have hle : ∀ s : ℕ, s ∈ spCandidates 3 3 1 →
        zCandAgree [0, -1, -2, -3] 3 1 s ≤ 0 := by
      intro s hs
      rw [hcand] at hs
      simp at hs
      have h34 : (0 : ℝ) ≤ 3 / Real.sqrt (3 / 4) := by positivity
      have h12 : (0 : ℝ) ≤ 2 / Real.sqrt (1 / 2) := by positivity
      have h14 : (0 : ℝ) ≤ 1 / Real.sqrt (1 / 4) := by positivity
      rcases hs with h | h | h
      · rw [h, e0, neg_div]; linarith
      · rw [h, e1, neg_div]; linarith
      · rw [h, e2, neg_div]; linarith
    have s0 : spStepAgreeOneSided [0, -1, -2, -3] 3 1 ⟨3, 0⟩ 0 = ⟨3, 0⟩ :=
      spStepAgreeOneSided_keep (hle 0 (by rw [hcand]; simp))
    have s1 : spStepAgreeOneSided [0, -1, -2, -3] 3 1 ⟨3, 0⟩ 1 = ⟨3, 0⟩ :=
      spStepAgreeOneSided_keep (hle 1 (by rw [hcand]; simp))
    have s2 : spStepAgreeOneSided [0, -1, -2, -3] 3 1 ⟨3, 0⟩ 2 = ⟨3, 0⟩ :=
      spStepAgreeOneSided_keep (hle 2 (by rw [hcand]; simp))
    unfold findOptimalStartingPointAgreementOneSided
    rw [hcand]
    simp only [List.foldl_cons, List.foldl_nil, s0, s1, s2]

/-! ### `findOptimalStartingPointPearson` -/

/-- Return record of the Pearson search: `{ startIdx, z, r }`. -/
structure SPResultR where
  startIdx : ℕ
  z : ℝ
  r : ℝ

/-- `bitSpan = tickSpan * bitsPerTick` for candidate `s`. -/
def pearsonBitSpan (ci : ℕ) (bt : ℝ) (s : ℕ) : ℝ := ((ci : ℝ) - s) * bt

/-- `meanX = sumX / bitSpan` of the Pearson search. -/
def pearsonMeanX (cA : List ℝ) (ci : ℕ) (bt : ℝ) (s : ℕ) : ℝ :=
  (cA.getD ci 0 - cA.getD s 0) / pearsonBitSpan ci bt s

/-- `cov = sumXY / bitSpan - meanX * meanY` of the Pearson search. -/
def pearsonCov (cXY cA cB : List ℝ) (ci : ℕ) (bt : ℝ) (s : ℕ) : ℝ :=
  (cXY.getD ci 0 - cXY.getD s 0) / pearsonBitSpan ci bt s -
    pearsonMeanX cA ci bt s * pearsonMeanX cB ci bt s

/-- `varX = Math.max(1e-6, 1 - meanX * meanX)`: the variance floor. -/
def pearsonVarX (cA : List ℝ) (ci : ℕ) (bt : ℝ) (s : ℕ) : ℝ :=
  max 1e-6 (1 - pearsonMeanX cA ci bt s * pearsonMeanX cA ci bt s)

/-- `r = cov / Math.sqrt(varX * varY)` of the Pearson search. -/
def pearsonRCand (cXY cA cB : List ℝ) (ci : ℕ) (bt : ℝ) (s : ℕ) : ℝ :=
  pearsonCov cXY cA cB ci bt s /
    Real.sqrt (pearsonVarX cA ci bt s * pearsonVarX cB ci bt s)

/-- `rClamped = Math.max(-0.999, Math.min(0.999, r))`. -/
def pearsonRClamped (cXY cA cB : List ℝ) (ci : ℕ) (bt : ℝ) (s : ℕ) : ℝ :=
  max (-0.999) (min 0.999 (pearsonRCand cXY cA cB ci bt s))

/-- `fisherZ = 0.5 * Math.log((1 + rClamped) / (1 - rClamped))`. -/
def pearsonFisherZ (cXY cA cB : List ℝ) (ci : ℕ) (bt : ℝ) (s : ℕ) : ℝ :=
  0.5 * Real.log ((1 + pearsonRClamped cXY cA cB ci bt s) /
    (1 - pearsonRClamped cXY cA cB ci bt s))

/-- `z = fisherZ * Math.sqrt(Math.max(1, bitSpan - 3))`. -/
def pearsonZCand (cXY cA cB : List ℝ) (ci : ℕ) (bt : ℝ) (s : ℕ) : ℝ :=
  pearsonFisherZ cXY cA cB ci bt s * Real.sqrt (max 1 (pearsonBitSpan ci bt s - 3))

/-- Loop body of `findOptimalStartingPointPearson`: replace the incumbent
iff `Math.abs(z) > Math.abs(bestZ)`, recording both `z` and (unclamped) `r`. -/
def spStepPearson (cXY cA cB : List ℝ) (ci : ℕ) (bt : ℝ)
    (acc : SPResultR) (s : ℕ) : SPResultR :=
  if |pearsonZCand cXY cA cB ci bt s| > |acc.z| then
    ⟨s, pearsonZCand cXY cA cB ci bt s, pearsonRCand cXY cA cB ci bt s⟩
  else acc

/-- `findOptimalStartingPointPearson` from `starting-point.ts`:
initial best `(currentIdx, 0, 0)`. -/
def findOptimalStartingPointPearson (cXY cA cB : List ℝ) (ci : ℕ)
    (bt : ℝ) (lookback minLen : ℕ) : SPResultR :=
  (spCandidates ci lookback minLen).foldl
    (spStepPearson cXY cA cB ci bt) ⟨ci, 0, 0⟩

lemma mem_spCandidates {ci lb ml s : ℕ} (hs : s ∈ spCandidates ci lb ml) :
    (s : ℤ) + ml ≤ (ci : ℤ) := by
  unfold spCandidates at hs
  rw [List.mem_range'_1] at hs
  obtain ⟨hlo, hhi⟩ := hs
  have h1 : s - (ci - lb) < (((ci : ℤ) - ml + 1 - (ci - lb : ℕ))).toNat := by
    omega
  rw [Int.lt_toNat] at h1
  omega

lemma foldl_spStepPearson_abs_z_le {cXY cA cB : List ℝ} {ci : ℕ} {bt : ℝ}
    {B : ℝ} :
    ∀ (l : List ℕ) (acc : SPResultR), |acc.z| ≤ B →
      (∀ s ∈ l, |pearsonZCand cXY cA cB ci bt s| ≤ B) →
      |(l.foldl (spStepPearson cXY cA cB ci bt) acc).z| ≤ B
  | [], _, hacc, _ => hacc
  | s :: t, acc, hacc, hl => by
    rw [List.foldl_cons]
    refine foldl_spStepPearson_abs_z_le t _ ?_
      (fun x hx => hl x (List.mem_cons_of_mem _ hx))
    unfold spStepPearson
    split
    · exact hl s (List.mem_cons_self _ _)
    · exact hacc

lemma pearsonRClamped_bounds (cXY cA cB : List ℝ) (ci : ℕ) (bt : ℝ) (s : ℕ) :
    -0.999 ≤ pearsonRClamped cXY cA cB ci bt s ∧
      pearsonRClamped cXY cA cB ci bt s ≤ 0.999 := by
  unfold pearsonRClamped
  exact ⟨le_max_left _ _, max_le (by norm_num) (min_le_left _ _)⟩

lemma pearsonFisherZ_abs_le (cXY cA cB : List ℝ) (ci : ℕ) (bt : ℝ) (s : ℕ) :
    |pearsonFisherZ cXY cA cB ci bt s| ≤ Real.log 1999 / 2 := by
  obtain ⟨hlo, hhi⟩ := pearsonRClamped_bounds cXY cA cB ci bt s
  set rc := pearsonRClamped cXY cA cB ci bt s with hrc
  have hp : (0 : ℝ) < 1 + rc := by linarith
  have hm : (0 : ℝ) < 1 - rc := by linarith
  have hqpos : (0 : ℝ) < (1 + rc) / (1 - rc) := by positivity
  have hup : (1 + rc) / (1 - rc) ≤ 1999 := by
    rw [div_le_iff₀ hm]
    linarith
  have hdn : (1999 : ℝ)⁻¹ ≤ (1 + rc) / (1 - rc) := by
    rw [inv_eq_one_div, div_le_div_iff₀ (by norm_num) hm]
    linarith
  have hlog_up : Real.log ((1 + rc) / (1 - rc)) ≤ Real.log 1999 :=
    Real.log_le_log hqpos hup
  have hlog_dn : -Real.log 1999 ≤ Real.log ((1 + rc) / (1 - rc)) := by
    have := Real.log_le_log (by norm_num : (0:ℝ) < (1999:ℝ)⁻¹) hdn
    rwa [Real.log_inv] at this
  unfold pearsonFisherZ
  rw [← hrc, abs_mul, abs_of_nonneg (by norm_num : (0:ℝ) ≤ 0.5)]
  have habs : |Real.log ((1 + rc) / (1 - rc))| ≤ Real.log 1999 :=
    abs_le.mpr ⟨hlog_dn, hlog_up⟩
  linarith

lemma pearsonZCand_abs_le (cXY cA cB : List ℝ) (ci : ℕ) (bt : ℝ) (s : ℕ)
    (hbt : 0 ≤ bt) :
    |pearsonZCand cXY cA cB ci bt s| ≤
      Real.log 1999 / 2 * Real.sqrt (max 1 ((ci : ℝ) * bt - 3)) := by
  unfold pearsonZCand
  rw [abs_mul, abs_of_nonneg (Real.sqrt_nonneg _)]
  have hspan : pearsonBitSpan ci bt s ≤ (ci : ℝ) * bt := by
    unfold pearsonBitSpan
    have hs0 : (0 : ℝ) ≤ (s : ℝ) := Nat.cast_nonneg s
    nlinarith
  have hsq : Real.sqrt (max 1 (pearsonBitSpan ci bt s - 3)) ≤
      Real.sqrt (max 1 ((ci : ℝ) * bt - 3)) :=
    Real.sqrt_le_sqrt (max_le_max le_rfl (by linarith))
  have h1 := pearsonFisherZ_abs_le cXY cA cB ci bt s
  have h2 : (0 : ℝ) ≤ Real.log 1999 / 2 :=
    div_nonneg (Real.log_nonneg (by norm_num)) (by norm_num)
  exact mul_le_mul h1 hsq (Real.sqrt_nonneg _) h2

/-- C9.  Pearson boundary safety: for every input with `bitsPerTick ≥ 1`
and `minSegmentLen ≥ 1` (the engine passes 200 and 3), every candidate
window of `findOptimalStartingPointPearson` has a strictly positive
`bitSpan`, variances floored at `1e-6` (so the square-root divisor is
strictly positive), `rClamped ∈ [-0.999, 0.999]` (so `1 ∓ rClamped` are
strictly positive and the Fisher transform is defined even when `r`
reaches or exceeds `±1`), and the returned `z` is finite, bounded by
`(log 1999 / 2)·√(max 1 (currentIdx·bitsPerTick − 3))`. -/
theorem findOptimalStartingPointPearson_safe
    (cXY cA cB : List ℝ) (ci : ℕ) (bt : ℝ) (lb ml : ℕ)
    (hbt : 1 ≤ bt) (hml : 1 ≤ ml) :
    (∀ s ∈ spCandidates ci lb ml,
      0 < pearsonBitSpan ci bt s ∧
      1e-6 ≤ pearsonVarX cA ci bt s ∧
      1e-6 ≤ pearsonVarX cB ci bt s ∧
      0 < Real.sqrt (pearsonVarX cA ci bt s * pearsonVarX cB ci bt s) ∧
      |pearsonRClamped cXY cA cB ci bt s| ≤ 0.999 ∧
      0 < 1 - pearsonRClamped cXY cA cB ci bt s ∧
      0 < 1 + pearsonRClamped cXY cA cB ci bt s) ∧
    |(findOptimalStartingPointPearson cXY cA cB ci bt lb ml).z| ≤
      Real.log 1999 / 2 * Real.sqrt (max 1 ((ci : ℝ) * bt - 3)) := by
  constructor
  · intro s hs
    have hms := mem_spCandidates hs
    have hml' : (1 : ℤ) ≤ (ml : ℤ) := by exact_mod_cast hml
    have hspan : (1 : ℝ) ≤ (ci : ℝ) - (s : ℝ) := by
      have h1 : (s : ℤ) + 1 ≤ (ci : ℤ) := by omega
      have h2 : ((s : ℤ) : ℝ) + 1 ≤ ((ci : ℤ) : ℝ) := by exact_mod_cast h1
      push_cast at h2
      linarith
    have hbitpos : 0 < pearsonBitSpan ci bt s := by
      unfold pearsonBitSpan
      nlinarith
    obtain ⟨hlo, hhi⟩ := pearsonRClamped_bounds cXY cA cB ci bt s
    refine ⟨hbitpos, le_max_left _ _, le_max_left _ _, ?_, ?_, ?_, ?_⟩
    · apply Real.sqrt_pos.mpr
      have h1 : (0 : ℝ) < pearsonVarX cA ci bt s :=
        lt_of_lt_of_le (by norm_num) (le_max_left _ _)
      have h2 : (0 : ℝ) < pearsonVarX cB ci bt s :=
        lt_of_lt_of_le (by norm_num) (le_max_left _ _)
      exact mul_pos h1 h2
    · exact abs_le.mpr ⟨hlo, hhi⟩
    · linarith
    · linarith
  · apply foldl_spStepPearson_abs_z_le
    · have h2 : (0 : ℝ) ≤ Real.log 1999 / 2 :=
        div_nonneg (Real.log_nonneg (by norm_num)) (by norm_num)
      have : |(0:ℝ)| = 0 := abs_zero
      simp only [SPResultR.z]
      rw [abs_zero]
      exact mul_nonneg h2 (Real.sqrt_nonneg _)
    · intro s _
      exact pearsonZCand_abs_le cXY cA cB ci bt s (by linarith)

/-- Witness for C9: the perfectly anticorrelation-free fixture
`cumSumXY = [0,2,4]`, `cumSumA = cumSumB = [0,0,0]` (alternating matched
bits), `currentIdx = 2`, `bitsPerTick = 2`, `lookback = 2`, `minLen = 1`,
for which the candidate window at `s = 0` has `r = 1` exactly. -/
theorem findOptimalStartingPointPearson_safe_witness :
    (1 : ℝ) ≤ 2 ∧ (1 : ℕ) ≤ 1 ∧
    ((∀ s ∈ spCandidates 2 2 1,
      0 < pearsonBitSpan 2 2 s ∧
      1e-6 ≤ pearsonVarX [0, 0, 0] 2 2 s ∧
      1e-6 ≤ pearsonVarX [0, 0, 0] 2 2 s ∧
      0 < Real.sqrt (pearsonVarX [0, 0, 0] 2 2 s * pearsonVarX [0, 0, 0] 2 2 s) ∧
      |pearsonRClamped [0, 2, 4] [0, 0, 0] [0, 0, 0] 2 2 s| ≤ 0.999 ∧
      0 < 1 - pearsonRClamped [0, 2, 4] [0, 0, 0] [0, 0, 0] 2 2 s ∧
      0 < 1 + pearsonRClamped [0, 2, 4] [0, 0, 0] [0, 0, 0] 2 2 s) ∧
    |(findOptimalStartingPointPearson [0, 2, 4] [0, 0, 0] [0, 0, 0] 2 2 2 1).z| ≤
      Real.log 1999 / 2 * Real.sqrt (max 1 ((2 : ℝ) * 2 - 3))) :=
  ⟨by norm_num, le_refl 1,
    findOptimalStartingPointPearson_safe [0, 2, 4] [0, 0, 0] [0, 0, 0] 2 2 2 1
      (by norm_num) (le_refl 1)⟩

/-! ## `src/routes/+page.svelte` — signal engine constants -/

def STRENGTH_Z_START : ℝ := 1.8
def STRENGTH_Z_FULL : ℝ := 3.5
def STICK_Z_START : ℝ := 2.2
def STICK_Z_FULL : ℝ := 3.8
def PEARSON_R_START : ℝ := 0.18
def PEARSON_R_FULL : ℝ := 0.45
def DOMINANCE_THRESHOLD : ℝ := 0.15
def COHERENCE_FLOOR : ℝ := 0.35
def MAX_LOOKBACK : ℕ := 120
def MIN_SEGMENT_LEN : ℕ := 3
def EPISODE_Z_THRESHOLD : ℝ := 1.6
def EPISODE_DECAY_THRESHOLD : ℝ := 0.8

/-- The `Channel` union type of `src/lib/signal/types.ts`. -/
inductive Channel
  | baseline
  | correlated_high
  | correlated_low
  | anti_ab
  | anti_ba
  | stick
  | pearson
  deriving DecidableEq

/-- The six non-baseline channels in the insertion (=`Object.keys`) order of
the `raw` record built in `signalTick`. -/
def channelKeys : List Channel :=
  [.correlated_high, .correlated_low, .anti_ab, .anti_ba, .stick, .pearson]

/-! ### Episode tracker (`updateEpisode`, `+page.svelte` lines 458–493) -/

/-- `EpisodeState` of `src/lib/signal/types.ts` /
`defaultEpisode = { startTick: 0, peakZ: 0, currentZ: 0, strength: 0 }`. -/
structure EpisodeState where
  startTick : ℕ
  peakZ : ℝ
  currentZ : ℝ
  strength : ℝ
  deriving DecidableEq

def defaultEpisode : EpisodeState := ⟨0, 0, 0, 0⟩

/-- `updateEpisode(channel, currentZ, segmentStart)` from `signalTick`,
acting on the channel's episode record with the enclosing `currentIdx`.
The three branches and the final `effectiveZ`/`strength` update are the
source's; `strengthFromZLocal` forwards to `strengthFromZ`. -/
def updateEpisode (ep : EpisodeState) (currentZ : ℝ)
    (currentIdx segmentStart : ℕ) : EpisodeState :=
  let absZ := |currentZ|
  let ep' :=
    if absZ > EPISODE_Z_THRESHOLD then
      if absZ > ep.peakZ then
        { ep with
          startTick := if ep.peakZ < EPISODE_Z_THRESHOLD then segmentStart
                       else ep.startTick,
          peakZ := absZ,
          currentZ := absZ }
      else { ep with currentZ := absZ }
    else if ep.peakZ > EPISODE_Z_THRESHOLD ∧ absZ < ep.peakZ * EPISODE_DECAY_THRESHOLD then
      { startTick := currentIdx, peakZ := absZ, currentZ := absZ,
        strength := ep.strength }
    else { ep with currentZ := absZ }
  let effectiveZ :=
    if ep'.peakZ > EPISODE_Z_THRESHOLD then max absZ (ep'.peakZ * 0.7) else absZ
  { ep' with strength := strengthFromZ effectiveZ STRENGTH_Z_START STRENGTH_Z_FULL }

/-! ### Dominance arbiter (`updateDominant`, `+page.svelte` lines 295–326) -/

/-- The `best`/`bestV` scan over `Object.keys(raw)`: start from
`(null, 0)` and take any strictly larger strength. -/
def dominantScan (raw : Channel → ℝ) : Option Channel × ℝ :=
  channelKeys.foldl (fun acc k => if raw k > acc.2 then (some k, raw k) else acc)
    (none, 0)

/-- `next = bestV > DOMINANCE_THRESHOLD && best ? best : 'baseline'`. -/
def nextChannel (raw : Channel → ℝ) : Channel :=
  if (dominantScan raw).2 > DOMINANCE_THRESHOLD ∧ (dominantScan raw).1 ≠ none then
    ((dominantScan raw).1).getD Channel.baseline
  else Channel.baseline

/-- `nextStrength = next === 'baseline' ? 0 : bestV`. -/
def nextStrength (raw : Channel → ℝ) : ℝ :=
  if nextChannel raw = Channel.baseline then 0 else (dominantScan raw).2

/-- The switch decision:
`dominant === 'baseline' ? next !== 'baseline'
 : nextStrength > currentStrength + switchMargin`
with `currentStrength = (raw[dominant] ?? 0) + keepBonus` for a
non-baseline dominant. -/
def shouldSwitch (raw : Channel → ℝ) (dominant : Channel)
    (keepBonus switchMargin : ℝ) : Prop :=
  if dominant = Channel.baseline then nextChannel raw ≠ Channel.baseline
  else nextStrength raw > raw dominant + keepBonus + switchMargin

/-- `updateDominant(raw, dtMs)`: returns the new `(dominant, dominance)`
pair.  The final source line
`if (dominant === 'baseline' && dominance < 0.05) dominant = 'baseline'`
re-assigns `baseline` to `baseline` and is the identity. -/
def updateDominant (raw : Channel → ℝ) (dominant : Channel) (dominance : ℝ)
    (keepBonus switchMargin dtMs : ℝ) : Channel × ℝ :=
  let target := if nextChannel raw = Channel.baseline then 0 else nextStrength raw
  let tau : ℝ := if target > dominance then 1200 else 1800
  let k := 1 - Real.exp (-dtMs / tau)
  let dominance' := dominance + (target - dominance) * k
  let dominant' :=
    if shouldSwitch raw dominant keepBonus switchMargin then nextChannel raw
    else dominant
  (dominant', dominance')

/-! ### Significance stage of `signalTick` (`+page.svelte` lines 540–565) -/

/-- Per-channel p-value: `z !== 0 ? twoSidedPFromZ(z) : 1`. -/
def pOfZ (z : ℝ) : ℝ := if z ≠ 0 then twoSidedPFromZ z else 1

/-- `pOverallReal = Math.min(COHERENCE_FLOOR, pCorrHigh, pCorrLow, pAntiAb,
pAntiBa, pStick, pPearson)` (variadic `Math.min` folds left). -/
def pOverallReal (z1 z2 z3 z4 z5 z6 : ℝ) : ℝ :=
  min (min (min (min (min (min COHERENCE_FLOOR (pOfZ z1)) (pOfZ z2)) (pOfZ z3))
    (pOfZ z4)) (pOfZ z5)) (pOfZ z6)

/-- `pOverall = demoBoost > 0.05 ? Math.min(pOverallReal, 0.001*(1-demoBoost))
: pOverallReal`. -/
def pOverall (z1 z2 z3 z4 z5 z6 demoBoost : ℝ) : ℝ :=
  if demoBoost > 0.05 then
    min (pOverallReal z1 z2 z3 z4 z5 z6) (0.001 * (1 - demoBoost))
  else pOverallReal z1 z2 z3 z4 z5 z6

/-- `surprisal = Math.min(6, -Math.log10(pOverall))`. -/
def surprisal (z1 z2 z3 z4 z5 z6 demoBoost : ℝ) : ℝ :=
  min 6 (-(Real.logb 10 (pOverall z1 z2 z3 z4 z5 z6 demoBoost)))

/-- `targetSig = clamp01((surprisal - 0.8) / 4.8)`. -/
def targetSig (z1 z2 z3 z4 z5 z6 demoBoost : ℝ) : ℝ :=
  clamp01 ((surprisal z1 z2 z3 z4 z5 z6 demoBoost - 0.8) / 4.8)

/-- The `sigEnergy` exponential chase with asymmetric rise/fall taus
(the last three lines of `signalTick`). -/
def sigEnergyNext (sigEnergy target dtMs riseMs fallMs : ℝ) : ℝ :=
  let sigTau := if target > sigEnergy then riseMs else fallMs
  let sk := 1 - Real.exp (-dtMs / sigTau)
  sigEnergy + (target - sigEnergy) * sk

/-! ### Frame stepping (`step`, `+page.svelte` lines 568–611) -/

/-- The timing sub-state of `step`: the boot clock and the fractional
tick accumulator. -/
structure StepState where
  bootMs : ℝ
  tickBudget : ℝ
  deriving DecidableEq

/-- The tick-budget logic of `step(dtMs)`, with `signalTick`'s effects
abstracted into the returned number of ticks executed this frame.
`bootLock` holds while `clamp01(bootMs/5000) < 1`; afterwards
`ticks = Math.min(Math.floor(tickBudget), 8)` are drained when positive,
otherwise the budget is clamped to `Math.min(2, tickBudget)`. -/
def stepTiming (st : StepState) (dtMs updatesPerSec : ℝ) : StepState × ℤ :=
  let bootMs' := st.bootMs + dtMs
  let bootLock := clamp01 (bootMs' / 5000) < 1
  let budget := st.tickBudget + updatesPerSec * (dtMs / 1000)
  let ticks : ℤ := min ⌊budget⌋ 8
  if bootLock then (⟨bootMs', min 2 budget⟩, 0)
  else if ticks > 0 then (⟨bootMs', budget - ticks⟩, ticks)
  else (⟨bootMs', min 2 budget⟩, 0)

/-! ### `reseed()` (`+page.svelte` lines 218–266) -/

/-- The engine state fields assigned by `reseed()`. -/
structure EngineState where
  bitsA : List Bool
  bitsB : List Bool
  onesA : ℕ
  onesB : ℕ
  agree : ℕ
  sumX : ℤ
  sumY : ℤ
  sumXY : ℤ
  zA : ℝ
  zB : ℝ
  pearsonR : ℝ
  pearsonSpin : ℝ
  pearsonDir : ℤ
  pearsonPhase : ℝ
  zAgree : ℝ
  coherence : ℝ
  sigEnergy : ℝ
  tickBudget : ℝ
  dominant : Channel
  dominance : ℝ
  hueSmooth : ℝ
  demoBoost : ℝ
  demoMode : Bool
  demoIndex : ℕ
  demoPearsonBoost : ℝ
  bootMs : ℝ
  cumSumA : List ℝ
  cumSumB : List ℝ
  cumSumAgree : List ℝ
  cumSumXY : List ℝ
  tickCount : ℕ
  episodes : Channel → EpisodeState
  sigPulseStart : ℝ
  sigWasAboveThreshold : Bool
  sigPulseLastTime : ℝ

/-- `recomputeAggregatesFromBuffers()`:
`(onesA, onesB, agree, sumX, sumY, sumXY)` accumulated over
`i = 0 .. sampleBits-1` with out-of-range reads defaulting like
JavaScript `undefined` comparisons (`undefined === 1` is false,
`undefined === undefined` is true). -/
def recomputeAggregates (bitsA bitsB : List Bool) (sampleBits : ℕ) :
    ℕ × ℕ × ℕ × ℤ × ℤ × ℤ :=
  (List.range sampleBits).foldl
    (fun acc i =>
      let a := bitsA.getD i false
      let b := bitsB.getD i false
      ((if a then acc.1 + 1 else acc.1),
       (if b then acc.2.1 + 1 else acc.2.1),
       (if a = b then acc.2.2.1 + 1 else acc.2.2.1),
       acc.2.2.2.1 + (if a then 1 else -1),
       acc.2.2.2.2.1 + (if b then 1 else -1),
       acc.2.2.2.2.2 + (if a then (1 : ℤ) else -1) * (if b then 1 else -1)))
    (0, 0, 0, 0, 0, 0)

/-- `reseed()`: fresh bit buffers come from the entropy source (modelled
as the `bitsA`/`bitsB` arguments); every other assignment is the
source's constant. -/
def reseed (bitsA bitsB : List Bool) (sampleBits : ℕ) : EngineState :=
  let agg := recomputeAggregates bitsA bitsB sampleBits
  { bitsA := bitsA
    bitsB := bitsB
    onesA := agg.1
    onesB := agg.2.1
    agree := agg.2.2.1
    sumX := agg.2.2.2.1
    sumY := agg.2.2.2.2.1
    sumXY := agg.2.2.2.2.2
    zA := 0
    zB := 0
    pearsonR := 0
    pearsonSpin := 0
    pearsonDir := 1
    pearsonPhase := 0
    zAgree := 0
    coherence := 0
    sigEnergy := 0
    tickBudget := 0
    dominant := Channel.baseline
    dominance := 0
    hueSmooth := 205
    demoBoost := 0
    demoMode := false
    demoIndex := 0
    demoPearsonBoost := 0
    bootMs := 0
    cumSumA := [0]
    cumSumB := [0]
    cumSumAgree := [0]
    cumSumXY := [0]
    tickCount := 0
    episodes := fun _ => defaultEpisode
    sigPulseStart := 0
    sigWasAboveThreshold := false
    sigPulseLastTime := 0 }

/-- C4 fixture: non-baseline dominant `correlated_high` at strength 0.50,
challenger `stick` at 0.55. -/
def rawFixtureA : Channel → ℝ
  | .correlated_high => 0.5
  | .stick => 0.55
  | _ => 0

/-- C4 fixture: challenger `stick` at 0.63. -/
def rawFixtureB : Channel → ℝ
  | .correlated_high => 0.5
  | .stick => 0.63
  | _ => 0

/-- C3 counterexample.  An episode with `peakZ = 3` (above
`Et = 1.6`) whose `|z|` drops to `0.7·peakZ = 2.1` is NOT reset:
`2.1 > 1.6` keeps the first branch, so `startTick` and `peakZ` survive,
contradicting the claim that dropping below the 0.8 decay fraction always
starts a new episode. -/
theorem updateEpisode_keeps_episode_on_deep_dip :
    (2.1 : ℝ) = 0.7 * 3 ∧ EPISODE_Z_THRESHOLD < 3 ∧
    (updateEpisode ⟨5, 3, 3, 1⟩ 2.1 17 9).startTick = 5 ∧
    (updateEpisode ⟨5, 3, 3, 1⟩ 2.1 17 9).peakZ = 3 := by
  have habs : |(2.1 : ℝ)| = 2.1 := abs_of_nonneg (by norm_num)
  have h1 : |(2.1 : ℝ)| > EPISODE_Z_THRESHOLD := by
    rw [habs]; norm_num [EPISODE_Z_THRESHOLD]
  have h2 : ¬(|(2.1 : ℝ)| > (3 : ℝ)) := by rw [habs]; norm_num
  refine ⟨by norm_num, by norm_num [EPISODE_Z_THRESHOLD], ?_, ?_⟩ <;>
    simp [updateEpisode, h1, h2]

/-- C3 (amended).  For an active episode (`peakZ > Et`): a tick at
`|z| = 0.9·peakZ` keeps the same `startTick`; a tick at `|z| = 0.7·peakZ`
resets the episode (`startTick := currentIdx`, `peakZ := |z|`) provided
`|z|` has also fallen to or below the episode threshold `Et` — the decay
reset fires only when `|z| ≤ Et` AND `|z| < 0.8·peakZ`. -/
theorem updateEpisode_decay_rule (ep : EpisodeState) (z : ℝ) (cur seg : ℕ)
    (hactive : EPISODE_Z_THRESHOLD < ep.peakZ) :
    (|z| = 0.9 * ep.peakZ → (updateEpisode ep z cur seg).startTick = ep.startTick) ∧
    (|z| = 0.7 * ep.peakZ → |z| ≤ EPISODE_Z_THRESHOLD →
      (updateEpisode ep z cur seg).startTick = cur ∧
      (updateEpisode ep z cur seg).peakZ = |z|) := by
  have hT : (0 : ℝ) < EPISODE_Z_THRESHOLD := by norm_num [EPISODE_Z_THRESHOLD]
  have hpk : 0 < ep.peakZ := hT.trans hactive
  constructor
  · intro h
    by_cases h1 : |z| > EPISODE_Z_THRESHOLD
    · have h2 : ¬(|z| > ep.peakZ) := by rw [h]; push_neg; nlinarith
      simp [updateEpisode, h1, h2]
    · have h3 : ¬(|z| < ep.peakZ * EPISODE_DECAY_THRESHOLD) := by
        rw [h, EPISODE_DECAY_THRESHOLD]; push_neg; nlinarith
      simp [updateEpisode, h1, h3]
  · intro h hle
    have h1 : ¬(|z| > EPISODE_Z_THRESHOLD) := not_lt.mpr hle
    have h2 : |z| < ep.peakZ * EPISODE_DECAY_THRESHOLD := by
      rw [h, EPISODE_DECAY_THRESHOLD]; nlinarith
    constructor <;> simp [updateEpisode, h1, h2, hactive]

/-- Witness for C3's amended rule at `peakZ = 2`: `|z| = 1.8 = 0.9·2`
keeps `startTick = 5`; `|z| = 1.4 = 0.7·2 ≤ 1.6` resets to the current
tick 17. -/
theorem updateEpisode_decay_rule_witness :
    (updateEpisode ⟨5, 2, 2, 1⟩ 1.8 17 9).startTick = 5 ∧
    (updateEpisode ⟨5, 2, 2, 1⟩ 1.4 17 9).startTick = 17 ∧
    (updateEpisode ⟨5, 2, 2, 1⟩ 1.4 17 9).peakZ = |(1.4 : ℝ)| := by
  have hact : EPISODE_Z_THRESHOLD < (⟨5, 2, 2, 1⟩ : EpisodeState).peakZ := by
    norm_num [EPISODE_Z_THRESHOLD]
  have h18 : |(1.8 : ℝ)| = 0.9 * (⟨5, 2, 2, 1⟩ : EpisodeState).peakZ := by
    rw [abs_of_nonneg (by norm_num : (0:ℝ) ≤ 1.8)]; norm_num
  have h14 : |(1.4 : ℝ)| = 0.7 * (⟨5, 2, 2, 1⟩ : EpisodeState).peakZ := by
    rw [abs_of_nonneg (by norm_num : (0:ℝ) ≤ 1.4)]; norm_num
  have h14le : |(1.4 : ℝ)| ≤ EPISODE_Z_THRESHOLD := by
    rw [abs_of_nonneg (by norm_num : (0:ℝ) ≤ 1.4)]
    norm_num [EPISODE_Z_THRESHOLD]
  exact ⟨(updateEpisode_decay_rule ⟨5, 2, 2, 1⟩ 1.8 17 9 hact).1 h18,
    ((updateEpisode_decay_rule ⟨5, 2, 2, 1⟩ 1.4 17 9 hact).2 h14 h14le).1,
    ((updateEpisode_decay_rule ⟨5, 2, 2, 1⟩ 1.4 17 9 hact).2 h14 h14le).2⟩

/-- C4.  The arbiter switches iff the dominant is baseline and the
candidate is not, or the dominant is non-baseline and the candidate's
strength strictly exceeds the dominant's strength plus `keepBonus` plus
`switchMargin`; in particular, with `switchMargin = 0.08`,
`keepBonus = 0.04`, a non-baseline dominant at strength 0.50 survives a
0.55 challenger (`0.55 ≤ 0.62`) but yields to a 0.63 challenger. -/
theorem updateDominant_switch_rule :
    (∀ (raw : Channel → ℝ) (dom : Channel) (dmg kb sm dt : ℝ),
      (updateDominant raw dom dmg kb sm dt).1 =
        if (dom = Channel.baseline ∧ nextChannel raw ≠ Channel.baseline) ∨
            (dom ≠ Channel.baseline ∧ nextStrength raw > raw dom + kb + sm)
        then nextChannel raw else dom) ∧
    (updateDominant rawFixtureA
        Channel.correlated_high 0 0.04 0.08 1000).1 = Channel.correlated_high ∧
    (updateDominant rawFixtureB
        Channel.correlated_high 0 0.04 0.08 1000).1 = Channel.stick := by
  have hfirst : ∀ (raw : Channel → ℝ) (dom : Channel) (dmg kb sm dt : ℝ),
      (updateDominant raw dom dmg kb sm dt).1 =
        if (dom = Channel.baseline ∧ nextChannel raw ≠ Channel.baseline) ∨
            (dom ≠ Channel.baseline ∧ nextStrength raw > raw dom + kb + sm)
        then nextChannel raw else dom := by
    intro raw dom dmg kb sm dt
    have hres : (updateDominant raw dom dmg kb sm dt).1 =
        if shouldSwitch raw dom kb sm then nextChannel raw else dom := rfl
    have hiff : shouldSwitch raw dom kb sm ↔
        ((dom = Channel.baseline ∧ nextChannel raw ≠ Channel.baseline) ∨
         (dom ≠ Channel.baseline ∧ nextStrength raw > raw dom + kb + sm)) := by
      by_cases hdom : dom = Channel.baseline <;> simp [shouldSwitch, hdom]
    rw [hres, if_congr hiff rfl rfl]
  have hscanA : dominantScan rawFixtureA = (some Channel.stick, 0.55) := by
    norm_num [dominantScan, channelKeys, rawFixtureA]
  have hscanB : dominantScan rawFixtureB = (some Channel.stick, 0.63) := by
    norm_num [dominantScan, channelKeys, rawFixtureB]
  have hnextA : nextChannel rawFixtureA = Channel.stick := by
    unfold nextChannel
    rw [hscanA, if_pos ⟨by norm_num [DOMINANCE_THRESHOLD], by simp⟩]
    rfl
  have hnextB : nextChannel rawFixtureB = Channel.stick := by
    unfold nextChannel
    rw [hscanB, if_pos ⟨by norm_num [DOMINANCE_THRESHOLD], by simp⟩]
    rfl
  have hnsA : nextStrength rawFixtureA = 0.55 := by
    unfold nextStrength
    rw [hnextA, hscanA, if_neg (by simp)]
  have hnsB : nextStrength rawFixtureB = 0.63 := by
    unfold nextStrength
    rw [hnextB, hscanB, if_neg (by simp)]
  refine ⟨hfirst, ?_, ?_⟩
  · have hcond : ¬((Channel.correlated_high = Channel.baseline ∧
        nextChannel rawFixtureA ≠ Channel.baseline) ∨
        (Channel.correlated_high ≠ Channel.baseline ∧
          nextStrength rawFixtureA > rawFixtureA Channel.correlated_high +
            0.04 + 0.08)) := by
      rw [hnsA, show rawFixtureA Channel.correlated_high = 0.5 from rfl]
      norm_num
      exact fun h => Channel.noConfusion h
    rw [hfirst, if_neg hcond]
  · have hcond : (Channel.correlated_high = Channel.baseline ∧
        nextChannel rawFixtureB ≠ Channel.baseline) ∨
        (Channel.correlated_high ≠ Channel.baseline ∧
          nextStrength rawFixtureB > rawFixtureB Channel.correlated_high +
            0.04 + 0.08) :=
      Or.inr ⟨by simp,
        by rw [hnsB, show rawFixtureB Channel.correlated_high = 0.5 from rfl]; norm_num⟩
    rw [hfirst, if_pos hcond, hnextB]

/-- C10.  With a non-baseline dominant, positive `keepBonus` and
`switchMargin`, and non-negative channel strengths, the arbiter never
hands dominance back to baseline: a baseline candidate has strength 0,
which cannot strictly exceed `raw[dominant] + keepBonus + switchMargin`. -/
theorem updateDominant_keeps_nonbaseline
    (raw : Channel → ℝ) (dom : Channel) (dmg kb sm dt : ℝ)
    (hdom : dom ≠ Channel.baseline) (hkb : 0 < kb) (hsm : 0 < sm)
    (hraw : ∀ c, 0 ≤ raw c) :
    (updateDominant raw dom dmg kb sm dt).1 ≠ Channel.baseline := by
  have hres : (updateDominant raw dom dmg kb sm dt).1 =
      if shouldSwitch raw dom kb sm then nextChannel raw else dom := rfl
  rw [hres]
  split_ifs with hsw
  · intro hnb
    have h0 : nextStrength raw = 0 := by simp [nextStrength, hnb]
    rw [shouldSwitch, if_neg hdom, h0] at hsw
    have := hraw dom
    linarith
  · exact hdom

/-- Witness for C10: all-zero strengths, dominant `stick`,
`keepBonus = 0.04`, `switchMargin = 0.08`. -/
theorem updateDominant_keeps_nonbaseline_witness :
    Channel.stick ≠ Channel.baseline ∧ (0:ℝ) < 0.04 ∧ (0:ℝ) < 0.08 ∧
    (updateDominant (fun _ => 0) Channel.stick 0 0.04 0.08 1000).1 ≠
      Channel.baseline :=
  ⟨by decide, by norm_num, by norm_num,
    updateDominant_keeps_nonbaseline (fun _ => 0) Channel.stick 0 0.04 0.08 1000
      (by decide) (by norm_num) (by norm_num) (fun _ => le_refl 0)⟩

/-! ### C2 — the significance calibrator applies no correction constants -/

lemma pOfZ_ge (z : ℝ) : 1e-18 ≤ pOfZ z := by
  unfold pOfZ
  split
  · exact le_max_left _ _
  · norm_num

lemma pOfZ_pos (z : ℝ) : 0 < pOfZ z := lt_of_lt_of_le (by norm_num) (pOfZ_ge z)

lemma pOfZ_zero : pOfZ 0 = 1 := by simp [pOfZ]

lemma pOverallReal_le_floor (z1 z2 z3 z4 z5 z6 : ℝ) :
    pOverallReal z1 z2 z3 z4 z5 z6 ≤ COHERENCE_FLOOR := by
  unfold pOverallReal
  exact le_trans (min_le_left _ _) (le_trans (min_le_left _ _)
    (le_trans (min_le_left _ _) (le_trans (min_le_left _ _)
      (le_trans (min_le_left _ _) (min_le_left _ _)))))

lemma pOverallReal_pos (z1 z2 z3 z4 z5 z6 : ℝ) :
    0 < pOverallReal z1 z2 z3 z4 z5 z6 := by
  unfold pOverallReal
  have hF : (0 : ℝ) < COHERENCE_FLOOR := by norm_num [COHERENCE_FLOOR]
  exact lt_min (lt_min (lt_min (lt_min (lt_min (lt_min hF (pOfZ_pos z1))
    (pOfZ_pos z2)) (pOfZ_pos z3)) (pOfZ_pos z4)) (pOfZ_pos z5)) (pOfZ_pos z6)

/-- C2 counterexample.  There are no calibration constants: no choice of
a median-under-null divisor for the stick and pearson p-values together
with a median-of-minimum-of-six-uniforms rescale of the floored minimum
(all strictly between 0 and 1, as such medians are) reproduces the
`pOverall` the code computes — at the all-zero input the code yields
`COHERENCE_FLOOR = 0.35` while the claimed pipeline yields `0.35 / cMin`. -/
theorem sigCalibrator_no_correction_constants :
    (∃ cStick cPearson cMin : ℝ,
      (0 < cStick ∧ cStick < 1) ∧ (0 < cPearson ∧ cPearson < 1) ∧
      (0 < cMin ∧ cMin < 1) ∧
      ∀ z1 z2 z3 z4 z5 z6 : ℝ,
        pOverall z1 z2 z3 z4 z5 z6 0 =
          (min (min (min (min (min (min COHERENCE_FLOOR (pOfZ z1)) (pOfZ z2))
            (pOfZ z3)) (pOfZ z4)) (pOfZ z5 / cStick)) (pOfZ z6 / cPearson)) / cMin)
    ↔ False := by
  rw [iff_false]
  rintro ⟨cS, cP, cM, ⟨hS0, hS1⟩, ⟨hP0, hP1⟩, ⟨hM0, hM1⟩, heq⟩
  have h := heq 0 0 0 0 0 0
  have hL : pOverall 0 0 0 0 0 0 0 = 0.35 := by
    rw [pOverall, if_neg (by norm_num)]
    unfold pOverallReal
    rw [pOfZ_zero]
    norm_num [COHERENCE_FLOOR]
  have h1S : (0.35 : ℝ) ≤ 1 / cS := by
    rw [le_div_iff₀ hS0]
    nlinarith
  have h1P : (0.35 : ℝ) ≤ 1 / cP := by
    rw [le_div_iff₀ hP0]
    nlinarith
  have hR : (min (min (min (min (min (min COHERENCE_FLOOR (pOfZ (0:ℝ)))
      (pOfZ (0:ℝ))) (pOfZ (0:ℝ))) (pOfZ (0:ℝ))) (pOfZ (0:ℝ) / cS))
      (pOfZ (0:ℝ) / cP)) = 0.35 := by
    rw [pOfZ_zero]
    rw [show min (min (min (min (min COHERENCE_FLOOR (1:ℝ)) 1) 1) 1)
        (1 / cS) = min (0.35 : ℝ) (1 / cS) by norm_num [COHERENCE_FLOOR]]
    rw [min_eq_left h1S, min_eq_left h1P]
  rw [hL, hR] at h
  rw [eq_div_iff (ne_of_gt hM0)] at h
  nlinarith

/-- C2 (amended).  With the demo override inactive (`demoBoost ≤ 0.05`),
the tick's significance target is the surprisal transform applied
directly to `pOverallReal = min(coherenceFloor, p₁, …, p₆)` — each `pᵢ`
the uncorrected two-sided p of its channel's z (1 at z = 0) — with no
division by search-bias constants and no rescaling; this combined p is
strictly positive and never exceeds the coherence floor. -/
theorem sigCalibrator_amended (z1 z2 z3 z4 z5 z6 demoBoost : ℝ)
    (hdemo : demoBoost ≤ 0.05) :
    targetSig z1 z2 z3 z4 z5 z6 demoBoost =
      clamp01 ((min 6 (-(Real.logb 10 (pOverallReal z1 z2 z3 z4 z5 z6))) - 0.8)
        / 4.8) ∧
    0 < pOverallReal z1 z2 z3 z4 z5 z6 ∧
    pOverallReal z1 z2 z3 z4 z5 z6 ≤ COHERENCE_FLOOR := by
  refine ⟨?_, pOverallReal_pos z1 z2 z3 z4 z5 z6,
    pOverallReal_le_floor z1 z2 z3 z4 z5 z6⟩
  unfold targetSig surprisal pOverall
  rw [if_neg (not_lt.mpr hdemo)]

/-- Witness for C2's amended statement at the all-zero tick with the
demo boost off. -/
theorem sigCalibrator_amended_witness :
    (0 : ℝ) ≤ 0.05 ∧
    (targetSig 0 0 0 0 0 0 0 =
      clamp01 ((min 6 (-(Real.logb 10 (pOverallReal 0 0 0 0 0 0))) - 0.8)
        / 4.8) ∧
    0 < pOverallReal 0 0 0 0 0 0 ∧
    pOverallReal 0 0 0 0 0 0 ≤ COHERENCE_FLOOR) :=
  ⟨by norm_num, sigCalibrator_amended 0 0 0 0 0 0 0 (by norm_num)⟩

/-! ### C6 — per-frame tick cap and budget retention -/

/-- C6 counterexample.  A post-boot frame that accumulates 20 ticks of
budget runs only 8 ticks but RETAINS the remaining 12 in `tickBudget`;
the very next frame (with `dt = 0`, adding nothing) runs 8 more ticks —
time beyond the per-frame cap is retroactively simulated on later
frames, not discarded. -/
theorem stepTiming_retains_surplus_budget :
    (stepTiming ⟨6000, 0⟩ 20000 1).2 = 8 ∧
    (stepTiming ⟨6000, 0⟩ 20000 1).1.tickBudget = 12 ∧
    (stepTiming (stepTiming ⟨6000, 0⟩ 20000 1).1 0 1).2 = 8 := by
  have h1 : stepTiming ⟨6000, 0⟩ 20000 1 = (⟨26000, 12⟩, 8) := by
    unfold stepTiming
    norm_num [clamp01]
  have h2 : stepTiming ⟨26000, 12⟩ 0 1 = (⟨26000, 4⟩, 8) := by
    unfold stepTiming
    norm_num [clamp01]
  rw [h1, h2]
  norm_num

/-- C6 (amended).  After boot, every frame runs between 0 and 8 logic
ticks, and the tick budget is conserved minus the ticks actually run:
surplus beyond the per-frame cap of 8 stays in the accumulator (to be
drained on later frames) rather than being discarded. -/
theorem stepTiming_cap_and_conservation (st : StepState) (dtMs ups : ℝ)
    (hpost : ¬ clamp01 ((st.bootMs + dtMs) / 5000) < 1) :
    (stepTiming st dtMs ups).2 ≤ 8 ∧ 0 ≤ (stepTiming st dtMs ups).2 ∧
    ((stepTiming st dtMs ups).1.tickBudget : ℝ) =
      st.tickBudget + ups * (dtMs / 1000) - ((stepTiming st dtMs ups).2 : ℝ) := by
  unfold stepTiming
  rw [if_neg hpost]
  split_ifs with ht
  · refine ⟨min_le_right _ _, le_of_lt ht, ?_⟩
    push_cast
    ring
  · push_neg at ht
    have hfl : ⌊st.tickBudget + ups * (dtMs / 1000)⌋ ≤ 0 := by
      by_contra hc
      push_neg at hc
      have : (0 : ℤ) < min ⌊st.tickBudget + ups * (dtMs / 1000)⌋ 8 :=
        lt_min hc (by norm_num)
      omega
    have hlt : st.tickBudget + ups * (dtMs / 1000) < 1 := by
      have := Int.lt_floor_add_one (st.tickBudget + ups * (dtMs / 1000))
      have hcast : (⌊st.tickBudget + ups * (dtMs / 1000)⌋ : ℝ) ≤ 0 := by
        exact_mod_cast hfl
      linarith
    refine ⟨by norm_num, le_refl 0, ?_⟩
    rw [min_eq_right (by linarith : st.tickBudget + ups * (dtMs / 1000) ≤ 2)]
    push_cast
    ring

/-- Witness for C6's amended statement: a post-boot frame
(`bootMs = 6000`) with half a tick of accumulated budget. -/
theorem stepTiming_cap_and_conservation_witness :
    ¬ clamp01 (((6000 : ℝ) + 0) / 5000) < 1 ∧
    ((stepTiming ⟨6000, 0.5⟩ 0 1).2 ≤ 8 ∧ 0 ≤ (stepTiming ⟨6000, 0.5⟩ 0 1).2 ∧
    ((stepTiming ⟨6000, 0.5⟩ 0 1).1.tickBudget : ℝ) =
      0.5 + 1 * ((0 : ℝ) / 1000) - ((stepTiming ⟨6000, 0.5⟩ 0 1).2 : ℝ)) :=
  ⟨by norm_num [clamp01],
    stepTiming_cap_and_conservation ⟨6000, 0.5⟩ 0 1 (by norm_num [clamp01])⟩

/-! ### C7 — reseed resets to the cold-start state -/

/-- C7.  Immediately after `reseed()` (for any freshly drawn bit
buffers): `sigEnergy = 0`, the dominant channel is baseline, all four
cumulative series are exactly `[0]` (one entry, equal to 0), and every
per-channel episode is the never-started
`{startTick: 0, peakZ: 0, currentZ: 0, strength: 0}`. -/
theorem reseed_cold_start (bitsA bitsB : List Bool) (sampleBits : ℕ) :
    (reseed bitsA bitsB sampleBits).sigEnergy = 0 ∧
    (reseed bitsA bitsB sampleBits).dominant = Channel.baseline ∧
    (reseed bitsA bitsB sampleBits).cumSumA = [0] ∧
    (reseed bitsA bitsB sampleBits).cumSumB = [0] ∧
    (reseed bitsA bitsB sampleBits).cumSumAgree = [0] ∧
    (reseed bitsA bitsB sampleBits).cumSumXY = [0] ∧
    (reseed bitsA bitsB sampleBits).cumSumA.length = 1 ∧
    (∀ c : Channel, (reseed bitsA bitsB sampleBits).episodes c =
      ⟨0, 0, 0, 0⟩) :=
  ⟨rfl, rfl, rfl, rfl, rfl, rfl, rfl, fun _ => rfl⟩

end Wyrdness
